import Mathlib

/-!
Shallow embedding of `src/image_scanner.py` (a PNG resolution scanner).

The program lists a directory, keeps files whose `os.path.splitext` extension
is `.png` or `.PNG`, decodes each image's width/height, stats its byte size,
and renders a console table, a summary block and an optional CSV export.
File sizes and aspect-ratio values are modelled as exact rationals; the
external collaborators (decoder, filesystem) are an explicit record of
functions, so every error path of the script is a value of the model.
-/

namespace ImageScanner

/-- One `(filename, width, height, file_size_mb)` tuple appended to
`image_data` by `get_png_resolutions`. -/
structure ImageRecord where
  filename : String
  width : Nat
  height : Nat
  sizeMB : ℚ
  deriving DecidableEq, Repr

/-- Pixel area `width * height`, the ranking key used by the `max`/`min`
calls in `display_results`. -/
def area (r : ImageRecord) : Nat := r.width * r.height

/-- The extension component of `os.path.splitext(f)`: the suffix starting at
the last dot, except that a run of leading dots never begins an extension
(so `".png"` and `"..png"` have extension `""`). -/
def splitextExt (f : String) : String :=
  let r := f.data.reverse
  let suf := r.takeWhile (fun c => c ≠ '.')
  match r.dropWhile (fun c => c ≠ '.') with
  | [] => ""
  | _ :: stemRev =>
    if stemRev.any (fun c => c ≠ '.') then String.mk ('.' :: suf.reverse) else ""

/-- The set literal `{'.png', '.PNG'}` from `get_png_resolutions`. -/
def supported_formats : List String := [".png", ".PNG"]

/-- The list-comprehension filter `os.path.splitext(f)[1] in supported_formats`. -/
def pngFilter (f : String) : Bool := supported_formats.contains (splitextExt f)

/-- Round a rational to the nearest integer, ties to even — the rounding
Python's builtin `round` applies. -/
def roundHalfEven (q : ℚ) : ℤ :=
  let f : ℤ := ⌊q⌋
  let r : ℚ := q - f
  if r < 1/2 then f
  else if 1/2 < r then f + 1
  else if f % 2 = 0 then f else f + 1

/-- Python's `round(x, 2)`. -/
def pyRound2 (q : ℚ) : ℚ := (roundHalfEven (q * 100) : ℚ) / 100

/-- The expression `round(width / height, 2) if height != 0 else 0`
computed inside the row loop of `display_results`. -/
def displayAspectRatio (w h : Nat) : ℚ :=
  if h ≠ 0 then pyRound2 ((w : ℚ) / (h : ℚ)) else 0

/-- The identical expression recomputed inside `create_csv_report`. -/
def csvAspectRatio (w h : Nat) : ℚ :=
  if h ≠ 0 then pyRound2 ((w : ℚ) / (h : ℚ)) else 0

/-- Modelled from the spec: the aspect-ratio contract as §4.3 states it —
`aspectRatio = round(width/height, 2)`, with a zero height yielding 0. -/
def specAspectRatio (w h : Nat) : ℚ :=
  if h = 0 then 0 else pyRound2 ((w : ℚ) / (h : ℚ))

/-! ## The external collaborators

The decoder and the filesystem are the script's only effectful
dependencies; they are modelled as a record of functions so that every
per-file failure path is an ordinary value. -/

/-- The observable behaviour of `os` and `PIL.Image` during one run:
whether the root exists, the directory listing, the decoder, the byte-size
stat, `os.path.abspath`, and whether the CSV write raises. -/
structure FileSystem where
  pathExists : Bool
  files : List String
  openImage : String → Except String (Nat × Nat)
  getsize : String → Except String Nat
  abspath : String → String
  csvWriteError : Option String

/-- `os.path.join` for the POSIX paths this script deals with. -/
def joinPath (d f : String) : String :=
  if d = "" then f else if d.endsWith "/" then d ++ f else d ++ "/" ++ f

/-- The body of the `try` block in `get_png_resolutions`: decode the image
header, stat the size, convert to megabytes; any failure aborts this file. -/
def extract (fs : FileSystem) (folder f : String) : Except String ImageRecord :=
  match fs.openImage (joinPath folder f) with
  | Except.error e => Except.error e
  | Except.ok (w, h) =>
    match fs.getsize (joinPath folder f) with
    | Except.error e => Except.error e
    | Except.ok sz => Except.ok ⟨f, w, h, (sz : ℚ) / (1024 * 1024)⟩

/-- The diagnostic printed by the `except` clause of the per-file loop. -/
def errLine (f e : String) : String := "Error processing " ++ f ++ ": " ++ e

/-- The `for filename in sorted(png_files)` loop: each success appends one
record, each failure prints one diagnostic and the loop continues. -/
def scanFiles (fs : FileSystem) (folder : String) :
    List String → List String × List ImageRecord
  | [] => ([], [])
  | f :: rest =>
    match extract fs folder f with
    | Except.ok r =>
      ((scanFiles fs folder rest).1, r :: (scanFiles fs folder rest).2)
    | Except.error e =>
      (errLine f e :: (scanFiles fs folder rest).1, (scanFiles fs folder rest).2)

/-- Python's string `<=` (lexicographic by code point), as the Bool
comparison handed to the sort. -/
def strLe (a b : String) : Bool := decide (a ≤ b)

/-- `get_png_resolutions`: returns the diagnostics printed and the list of
extracted records. -/
def get_png_resolutions (fs : FileSystem) (folder_path : String) :
    List String × List ImageRecord :=
  if fs.pathExists = false then
    (["Error: Folder \x27" ++ folder_path ++ "\x27 not found!"], [])
  else
    let png_files := fs.files.filter pngFilter
    if png_files.isEmpty then
      (["No PNG files found in \x27" ++ folder_path ++ "\x27 directory.",
        "Looking for files with .png or .PNG extensions."], [])
    else
      let scanned := scanFiles fs folder_path (png_files.mergeSort strLe)
      (("Found " ++ toString png_files.length ++ " PNG files. Scanning...\n")
        :: scanned.1, scanned.2)

/-! ## Rendering -/

/-- Python's `"c" * n`. -/
def repeatChar (c : Char) (n : Nat) : String := String.mk (List.replicate n c)

/-- Python's `f"{s:<n}"`: left-justify in a field of width `n`. -/
def padRight (s : String) (n : Nat) : String :=
  s ++ repeatChar ' ' (n - s.length)

/-- Python's `f"{q:.2f}"`: fixed-point rendering with exactly two digits
after the decimal point (round half to even). -/
def fmt2 (q : ℚ) : String :=
  let n := roundHalfEven (q * 100)
  let m := n.natAbs
  (if n < 0 then "-" else "") ++ toString (m / 100) ++ "." ++
    String.mk [Nat.digitChar (m / 10 % 10), Nat.digitChar (m % 10)]

/-- Stand-in for Python's rendering of the aspect-ratio float at the end of
a table row (the exact float repr is outside the embedding). -/
def ratStr (q : ℚ) : String := toString q

/-- The column-header line of the console table. -/
def headerLine : String :=
  padRight "Filename" 40 ++ " " ++ padRight "Width" 8 ++ " " ++
    padRight "Height" 8 ++ " " ++ padRight "Size (MB)" 10 ++ " " ++ "Aspect Ratio"

/-- One data row of the console table. -/
def rowLine (r : ImageRecord) : String :=
  padRight r.filename 40 ++ " " ++ padRight (toString r.width) 8 ++ " " ++
    padRight (toString r.height) 8 ++ " " ++ padRight (fmt2 r.sizeMB) 10 ++ " " ++
    ratStr (displayAspectRatio r.width r.height)

/-- The running total `total_size += file_size` accumulated by the row loop. -/
def totalSizeFold (l : List ImageRecord) : ℚ :=
  l.foldl (fun acc r => acc + r.sizeMB) 0

/-- Python's `max(image_data, key=lambda x: x[1] * x[2])` after the first
element has been taken as the initial candidate: a later element replaces
the current one only when its key is strictly greater. -/
def pyMaxArea (acc : ImageRecord) : List ImageRecord → ImageRecord
  | [] => acc
  | x :: xs => pyMaxArea (if area acc < area x then x else acc) xs

/-- Python's `min(image_data, key=lambda x: x[1] * x[2])`, dually. -/
def pyMinArea (acc : ImageRecord) : List ImageRecord → ImageRecord
  | [] => acc
  | x :: xs => pyMinArea (if area x < area acc then x else acc) xs

/-- The `large_files` listing (`item[3] > 2.0`). -/
def largeFilesBlock (l : List ImageRecord) : List String :=
  let large_files := l.filter (fun r => 2 < r.sizeMB)
  if large_files.isEmpty then []
  else ("\nLarge files (>2MB): " ++ toString large_files.length ++ " files")
    :: large_files.map (fun r => "  - " ++ r.filename ++ ": " ++ fmt2 r.sizeMB ++ " MB")

/-- The `Largest PNG` / `Smallest PNG` lines. -/
def extremesBlock : List ImageRecord → List String
  | [] => []
  | h :: t =>
    let largest := pyMaxArea h t
    let smallest := pyMinArea h t
    ["\nLargest PNG: " ++ largest.filename ++ " (" ++ toString largest.width ++
       "x" ++ toString largest.height ++ ")",
     "Smallest PNG: " ++ smallest.filename ++ " (" ++ toString smallest.width ++
       "x" ++ toString smallest.height ++ ")"]

/-- The banner and column header printed before the rows. -/
def tableHeaderLines : List String :=
  [repeatChar '=' 85, "PNG FILES RESOLUTION REPORT", repeatChar '=' 85,
   headerLine, repeatChar '-' 85]

/-- Everything `display_results` prints after the rows: separator, totals,
extrema, optional large-file listing. -/
def summaryLines (l : List ImageRecord) : List String :=
  [repeatChar '-' 85,
   "Total PNG files: " ++ toString l.length,
   "Total size: " ++ fmt2 (totalSizeFold l) ++ " MB"]
  ++ (if l.isEmpty then [] else extremesBlock l ++ largeFilesBlock l)

/-- `display_results`: the full sequence of lines printed for a record
list; an empty list prints nothing. -/
def display_results (l : List ImageRecord) : List String :=
  if l.isEmpty then []
  else tableHeaderLines ++ l.map rowLine ++ summaryLines l

/-! ## CSV export -/

/-- One data row handed to `csv.writer.writerow` (text serialization is the
CSV library's concern, outside this embedding). -/
structure CsvRow where
  filename : String
  width : Nat
  height : Nat
  sizeMB : ℚ
  aspect : ℚ
  deriving DecidableEq, Repr

/-- The header row `['Filename', 'Width', 'Height', 'Size_MB', 'Aspect_Ratio']`. -/
def csvHeaderRow : List String :=
  ["Filename", "Width", "Height", "Size_MB", "Aspect_Ratio"]

/-- The row written for one record, aspect ratio recomputed in place. -/
def csvRowOf (r : ImageRecord) : CsvRow :=
  ⟨r.filename, r.width, r.height, r.sizeMB, csvAspectRatio r.width r.height⟩

/-- `create_csv_report`: the rows that end up in the file (`none` when
nothing is written) and the lines printed. An empty record list returns
before touching the file; a write failure is caught and reported. -/
def create_csv_report (writeError : Option String) (l : List ImageRecord)
    (output_file : String) : Option (List CsvRow) × List String :=
  if l.isEmpty then (none, [])
  else
    match writeError with
    | some e => (none, ["Error creating CSV report: " ++ e])
    | none => (some (l.map csvRowOf), ["\nCSV report saved as: " ++ output_file])

/-! ## Top level -/

/-- `main`: every line the process prints, as a function of the filesystem
behaviour, `sys.argv[1:]` and the confirmation-prompt reply. -/
def main (fs : FileSystem) (argv : List String) (userInput : String) : List String :=
  let folder_path := match argv with | [] => "." | a :: _ => a
  let pre :=
    ["PNG Resolution Scanner", repeatChar '=' 40,
     "Scanning directory: " ++ fs.abspath folder_path,
     "Looking for: .png and .PNG files"]
  let scanned := get_png_resolutions fs folder_path
  let image_data := scanned.2
  let csvLines :=
    if image_data.isEmpty then []
    else
      "\nCreate CSV report? (y/n): " ::
        (if ["y", "yes"].contains userInput.toLower.trim then
          (create_csv_report fs.csvWriteError image_data "png_resolutions.csv").2
         else [])
  pre ++ scanned.1 ++ display_results image_data ++ csvLines ++ ["\nDone!"]

/-! ## Theorems -/

/-- A concrete filesystem whose root path is missing. -/
def fsNoRoot : FileSystem :=
  ⟨false, [], fun _ => Except.error "io", fun _ => Except.error "io",
    fun p => p, none⟩

/-- A concrete filesystem with two decodable PNGs and one corrupt one. -/
def fsTwoGoodOneBad : FileSystem :=
  ⟨true, ["a.png", "bad.png", "c.png"],
    fun p => if p = "./bad.png" then Except.error "cannot identify image file"
             else Except.ok (100, 50),
    fun _ => Except.ok 1048576,
    fun p => p, none⟩

lemma displayAspectRatio_eq_spec (w h : Nat) :
    displayAspectRatio w h = specAspectRatio w h := by
  by_cases hh : h = 0 <;> simp [displayAspectRatio, specAspectRatio, hh]

lemma csvAspectRatio_eq_spec (w h : Nat) :
    csvAspectRatio w h = specAspectRatio w h := by
  by_cases hh : h = 0 <;> simp [csvAspectRatio, specAspectRatio, hh]

/-- C1: every aspect-ratio value placed in a console-table row and every
aspect-ratio field of a CSV row equals `round(width/height, 2)`, except
that a zero height yields 0 (the `specAspectRatio` policy); in particular
the row renderers never divide by zero. -/
theorem aspect_ratio_displayed_and_exported_matches_spec (r : ImageRecord) :
    displayAspectRatio r.width r.height = specAspectRatio r.width r.height ∧
    (csvRowOf r).aspect = specAspectRatio r.width r.height ∧
    ∃ s : String, rowLine r = s ++ ratStr (specAspectRatio r.width r.height) := by
  refine ⟨displayAspectRatio_eq_spec _ _, csvAspectRatio_eq_spec _ _,
    ⟨padRight r.filename 40 ++ " " ++ padRight (toString r.width) 8 ++ " " ++
      padRight (toString r.height) 8 ++ " " ++ padRight (fmt2 r.sizeMB) 10 ++ " ", ?_⟩⟩
  unfold rowLine
  rw [displayAspectRatio_eq_spec]

/-- C4: the Variant B filter accepts a filename exactly when its
`splitext` extension is the literal `.png` or the literal `.PNG`;
on the directory `[logo.PNG, logo.png, icon.Png]` it keeps exactly the
first two names and drops `icon.Png`. -/
theorem variantB_extension_filter_case_sensitive :
    (∀ f : String,
        pngFilter f = true ↔ (splitextExt f = ".png" ∨ splitextExt f = ".PNG")) ∧
    List.filter pngFilter ["logo.PNG", "logo.png", "icon.Png"] =
      ["logo.PNG", "logo.png"] := by
  constructor
  · intro f
    simp [pngFilter, supported_formats, List.contains]
  · decide

/-- C8: with an empty record list `display_results` prints nothing at
all — no banner, no header, no summary block. -/
theorem display_results_empty_prints_nothing : display_results [] = [] := rfl

/-- C10: a directory entry whose whole name is `.png` or `.PNG` is never
selected as a candidate, because `splitext` gives a leading-dot-only name
an empty extension. -/
theorem dotfile_named_png_never_selected :
    (∀ files : List String,
        (".png" ∈ files.filter pngFilter → False) ∧
        (".PNG" ∈ files.filter pngFilter → False)) ∧
    splitextExt ".png" = "" ∧ splitextExt ".PNG" = "" := by
  have h1 : pngFilter ".png" = false := by decide
  have h2 : pngFilter ".PNG" = false := by decide
  refine ⟨fun files => ⟨fun hm => ?_, fun hm => ?_⟩, by decide, by decide⟩
  · have := (List.mem_filter.mp hm).2
    rw [h1] at this
    exact Bool.false_ne_true this
  · have := (List.mem_filter.mp hm).2
    rw [h2] at this
    exact Bool.false_ne_true this

/-- C6: when the root path does not exist, `get_png_resolutions` returns
the folder-not-found diagnostic and an empty record list — it does not
throw. -/
theorem get_png_resolutions_missing_root (fs : FileSystem) (folder : String)
    (h : fs.pathExists = false) :
    get_png_resolutions fs folder =
      (["Error: Folder \x27" ++ folder ++ "\x27 not found!"], []) := by
  simp [get_png_resolutions, h]

/-- Witness for C6 at a concrete filesystem with a missing root. -/
theorem get_png_resolutions_missing_root_witness :
    fsNoRoot.pathExists = false ∧
    get_png_resolutions fsNoRoot "images" =
      (["Error: Folder \x27" ++ "images" ++ "\x27 not found!"], []) :=
  ⟨rfl, get_png_resolutions_missing_root fsNoRoot "images" rfl⟩

lemma pyMaxArea_bounds : ∀ (xs : List ImageRecord) (acc : ImageRecord),
    area acc ≤ area (pyMaxArea acc xs) ∧
      ∀ x ∈ xs, area x ≤ area (pyMaxArea acc xs)
  | [], acc => ⟨le_refl _, by simp⟩
  | x :: xs, acc => by
    rw [pyMaxArea]
    by_cases h : area acc < area x
    · rw [if_pos h]
      obtain ⟨h1, h2⟩ := pyMaxArea_bounds xs x
      refine ⟨le_trans (Nat.le_of_lt h) h1, ?_⟩
      intro y hy
      rcases List.mem_cons.mp hy with rfl | hm
      · exact h1
      · exact h2 y hm
    · rw [if_neg h]
      obtain ⟨h1, h2⟩ := pyMaxArea_bounds xs acc
      refine ⟨h1, ?_⟩
      intro y hy
      rcases List.mem_cons.mp hy with rfl | hm
      · exact le_trans (Nat.le_of_not_lt h) h1
      · exact h2 y hm

lemma pyMinArea_bounds : ∀ (xs : List ImageRecord) (acc : ImageRecord),
    area (pyMinArea acc xs) ≤ area acc ∧
      ∀ x ∈ xs, area (pyMinArea acc xs) ≤ area x
  | [], acc => ⟨le_refl _, by simp⟩
  | x :: xs, acc => by
    rw [pyMinArea]
    by_cases h : area x < area acc
    · rw [if_pos h]
      obtain ⟨h1, h2⟩ := pyMinArea_bounds xs x
      refine ⟨le_trans h1 (Nat.le_of_lt h), ?_⟩
      intro y hy
      rcases List.mem_cons.mp hy with rfl | hm
      · exact h1
      · exact h2 y hm
    · rw [if_neg h]
      obtain ⟨h1, h2⟩ := pyMinArea_bounds xs acc
      refine ⟨h1, ?_⟩
      intro y hy
      rcases List.mem_cons.mp hy with rfl | hm
      · exact le_trans h1 (Nat.le_of_not_lt h)
      · exact h2 y hm

lemma pyMaxArea_mem : ∀ (xs : List ImageRecord) (acc : ImageRecord),
    pyMaxArea acc xs ∈ acc :: xs
  | [], acc => by simp [pyMaxArea]
  | x :: xs, acc => by
    rw [pyMaxArea]
    by_cases h : area acc < area x
    · rw [if_pos h]
      rcases List.mem_cons.mp (pyMaxArea_mem xs x) with heq | hm
      · rw [heq]; exact List.mem_cons_of_mem _ (List.mem_cons_self _ _)
      · exact List.mem_cons_of_mem _ (List.mem_cons_of_mem _ hm)
    · rw [if_neg h]
      rcases List.mem_cons.mp (pyMaxArea_mem xs acc) with heq | hm
      · rw [heq]; exact List.mem_cons_self _ _
      · exact List.mem_cons_of_mem _ (List.mem_cons_of_mem _ hm)

lemma pyMinArea_mem : ∀ (xs : List ImageRecord) (acc : ImageRecord),
    pyMinArea acc xs ∈ acc :: xs
  | [], acc => by simp [pyMinArea]
  | x :: xs, acc => by
    rw [pyMinArea]
    by_cases h : area x < area acc
    · rw [if_pos h]
      rcases List.mem_cons.mp (pyMinArea_mem xs x) with heq | hm
      · rw [heq]; exact List.mem_cons_of_mem _ (List.mem_cons_self _ _)
      · exact List.mem_cons_of_mem _ (List.mem_cons_of_mem _ hm)
    · rw [if_neg h]
      rcases List.mem_cons.mp (pyMinArea_mem xs acc) with heq | hm
      · rw [heq]; exact List.mem_cons_self _ _
      · exact List.mem_cons_of_mem _ (List.mem_cons_of_mem _ hm)

lemma pyMaxArea_first : ∀ (xs : List ImageRecord) (acc : ImageRecord),
    List.find? (fun y => area y == area (pyMaxArea acc xs)) (acc :: xs) =
      some (pyMaxArea acc xs)
  | [], acc => by
    rw [show pyMaxArea acc [] = acc from rfl]
    rw [List.find?_cons, show (area acc == area acc) = true from by simp]
  | x :: xs, acc => by
    by_cases h : area acc < area x
    · rw [show pyMaxArea acc (x :: xs) = pyMaxArea x xs from by
        rw [pyMaxArea, if_pos h]]
      have hb := (pyMaxArea_bounds xs x).1
      have hacc : (area acc == area (pyMaxArea x xs)) = false := by
        simp only [beq_eq_false_iff_ne, ne_eq]
        omega
      rw [List.find?_cons, hacc]
      exact pyMaxArea_first xs x
    · rw [show pyMaxArea acc (x :: xs) = pyMaxArea acc xs from by
        rw [pyMaxArea, if_neg h]]
      have ih := pyMaxArea_first xs acc
      by_cases hacc : area acc = area (pyMaxArea acc xs)
      · have hpos : (area acc == area (pyMaxArea acc xs)) = true := by simp [hacc]
        rw [List.find?_cons, hpos] at ih ⊢
        exact ih
      · have hneg : (area acc == area (pyMaxArea acc xs)) = false := by
          simp [hacc]
        rw [List.find?_cons, hneg] at ih
        rw [List.find?_cons, hneg]
        have hxneg : (area x == area (pyMaxArea acc xs)) = false := by
          simp only [beq_eq_false_iff_ne, ne_eq]
          have h1 : area x ≤ area acc := Nat.le_of_not_lt h
          have h2 : area acc ≤ area (pyMaxArea acc xs) := (pyMaxArea_bounds xs acc).1
          intro hx
          omega
        show List.find? (fun y => area y == area (pyMaxArea acc xs)) (x :: xs) =
          some (pyMaxArea acc xs)
        rw [List.find?_cons, hxneg]
        exact ih

lemma pyMinArea_first : ∀ (xs : List ImageRecord) (acc : ImageRecord),
    List.find? (fun y => area y == area (pyMinArea acc xs)) (acc :: xs) =
      some (pyMinArea acc xs)
  | [], acc => by
    rw [show pyMinArea acc [] = acc from rfl]
    rw [List.find?_cons, show (area acc == area acc) = true from by simp]
  | x :: xs, acc => by
    by_cases h : area x < area acc
    · rw [show pyMinArea acc (x :: xs) = pyMinArea x xs from by
        rw [pyMinArea, if_pos h]]
      have hb := (pyMinArea_bounds xs x).1
      have hacc : (area acc == area (pyMinArea x xs)) = false := by
        simp only [beq_eq_false_iff_ne, ne_eq]
        omega
      rw [List.find?_cons, hacc]
      exact pyMinArea_first xs x
    · rw [show pyMinArea acc (x :: xs) = pyMinArea acc xs from by
        rw [pyMinArea, if_neg h]]
      have ih := pyMinArea_first xs acc
      by_cases hacc : area acc = area (pyMinArea acc xs)
      · have hpos : (area acc == area (pyMinArea acc xs)) = true := by simp [hacc]
        rw [List.find?_cons, hpos] at ih ⊢
        exact ih
      · have hneg : (area acc == area (pyMinArea acc xs)) = false := by
          simp [hacc]
        rw [List.find?_cons, hneg] at ih
        rw [List.find?_cons, hneg]
        have hxneg : (area x == area (pyMinArea acc xs)) = false := by
          simp only [beq_eq_false_iff_ne, ne_eq]
          have h1 : area acc ≤ area x := Nat.le_of_not_lt h
          have h2 : area (pyMinArea acc xs) ≤ area acc := (pyMinArea_bounds xs acc).1
          intro hx
          omega
        show List.find? (fun y => area y == area (pyMinArea acc xs)) (x :: xs) =
          some (pyMinArea acc xs)
        rw [List.find?_cons, hxneg]
        exact ih

/-- C2: on a non-empty record list the reported largest record is a stable
argmax of pixel area and the smallest a stable argmin: both belong to the
list, no element beats them, and `find?` shows each is the earliest
element of the list attaining its area. -/
theorem largest_smallest_stable_argmax_argmin (h : ImageRecord)
    (t : List ImageRecord) :
    (pyMaxArea h t ∈ h :: t ∧
      (∀ x ∈ h :: t, area x ≤ area (pyMaxArea h t)) ∧
      List.find? (fun y => area y == area (pyMaxArea h t)) (h :: t) =
        some (pyMaxArea h t)) ∧
    (pyMinArea h t ∈ h :: t ∧
      (∀ x ∈ h :: t, area (pyMinArea h t) ≤ area x) ∧
      List.find? (fun y => area y == area (pyMinArea h t)) (h :: t) =
        some (pyMinArea h t)) := by
  obtain ⟨hmax1, hmax2⟩ := pyMaxArea_bounds t h
  obtain ⟨hmin1, hmin2⟩ := pyMinArea_bounds t h
  refine ⟨⟨pyMaxArea_mem t h, ?_, pyMaxArea_first t h⟩,
    ⟨pyMinArea_mem t h, ?_, pyMinArea_first t h⟩⟩
  · intro x hx
    rcases List.mem_cons.mp hx with rfl | hm
    · exact hmax1
    · exact hmax2 x hm
  · intro x hx
    rcases List.mem_cons.mp hx with rfl | hm
    · exact hmin1
    · exact hmin2 x hm

lemma foldl_sizeMB (l : List ImageRecord) : ∀ init : ℚ,
    l.foldl (fun acc r => acc + r.sizeMB) init =
      init + (l.map ImageRecord.sizeMB).sum := by
  induction l with
  | nil => intro i; simp
  | cons x xs ih =>
    intro i
    simp only [List.foldl_cons, List.map_cons, List.sum_cons, ih]
    ring

lemma totalSizeFold_eq_sum (l : List ImageRecord) :
    totalSizeFold l = (l.map ImageRecord.sizeMB).sum := by
  rw [totalSizeFold, foldl_sizeMB]
  ring

/-- C7: the reported total is the running `total_size` accumulator, which
equals the exact sum of the records' `sizeInMegabytes`; the summary block
renders it through `fmt2`, whose output always carries exactly two digits
after the decimal point. -/
theorem total_size_is_sum_and_two_decimals (l : List ImageRecord) :
    totalSizeFold l = (l.map ImageRecord.sizeMB).sum ∧
    ("Total size: " ++ fmt2 ((l.map ImageRecord.sizeMB).sum) ++ " MB")
      ∈ summaryLines l ∧
    ∀ q : ℚ, ∃ s t : String, fmt2 q = s ++ "." ++ t ∧ t.length = 2 := by
  refine ⟨totalSizeFold_eq_sum l, ?_, ?_⟩
  · have hmem : ("Total size: " ++ fmt2 (totalSizeFold l) ++ " MB")
        ∈ summaryLines l := by
      rw [summaryLines]
      exact List.mem_append_left _ (by simp)
    rwa [totalSizeFold_eq_sum] at hmem
  · intro q
    refine ⟨(if roundHalfEven (q * 100) < 0 then "-" else "") ++
        toString ((roundHalfEven (q * 100)).natAbs / 100),
      String.mk [Nat.digitChar ((roundHalfEven (q * 100)).natAbs / 10 % 10),
        Nat.digitChar ((roundHalfEven (q * 100)).natAbs % 10)], rfl, rfl⟩

lemma extract_ok_filename (fs : FileSystem) (folder f : String)
    (r : ImageRecord) (h : extract fs folder f = Except.ok r) :
    r.filename = f := by
  unfold extract at h
  cases ho : fs.openImage (joinPath folder f) with
  | error e => rw [ho] at h; simp at h
  | ok p =>
    obtain ⟨w, ht⟩ := p
    rw [ho] at h
    cases hs : fs.getsize (joinPath folder f) with
    | error e => rw [hs] at h; simp at h
    | ok sz =>
      rw [hs] at h
      simp only [Except.ok.injEq] at h
      rw [← h]

lemma scanFiles_records (fs : FileSystem) (folder : String) :
    ∀ fl : List String, (scanFiles fs folder fl).2 =
      fl.filterMap (fun f => (extract fs folder f).toOption)
  | [] => rfl
  | f :: rest => by
    have ih := scanFiles_records fs folder rest
    cases h : extract fs folder f with
    | ok r => simp [scanFiles, h, Except.toOption, ih]
    | error e => simp [scanFiles, h, Except.toOption, ih]

lemma scanFiles_diags (fs : FileSystem) (folder : String) :
    ∀ fl : List String, (scanFiles fs folder fl).1 =
      fl.filterMap (fun f =>
        match extract fs folder f with
        | Except.ok _ => none
        | Except.error e => some (errLine f e))
  | [] => rfl
  | f :: rest => by
    have ih := scanFiles_diags fs folder rest
    cases h : extract fs folder f with
    | ok r => simp [scanFiles, h, ih]
    | error e => simp [scanFiles, h, ih]

/-- C5: every failing candidate contributes exactly its diagnostic (naming
the file and the error) and no record, every succeeding one exactly its
record, and the scan of the remaining candidates is unaffected: the record
list is the `filterMap` of the successes and the diagnostic list the
`filterMap` of the failures. -/
theorem failing_file_skipped_with_diagnostic (fs : FileSystem)
    (folder : String) (fl : List String) :
    (scanFiles fs folder fl).2 =
      fl.filterMap (fun f => (extract fs folder f).toOption) ∧
    (scanFiles fs folder fl).1 =
      fl.filterMap (fun f =>
        match extract fs folder f with
        | Except.ok _ => none
        | Except.error e => some (errLine f e)) ∧
    (∀ f ∈ fl, ∀ e : String, extract fs folder f = Except.error e →
      errLine f e ∈ (scanFiles fs folder fl).1 ∧
        ∀ r ∈ (scanFiles fs folder fl).2, r.filename ≠ f) := by
  refine ⟨scanFiles_records fs folder fl, scanFiles_diags fs folder fl, ?_⟩
  intro f hf e he
  constructor
  · rw [scanFiles_diags]
    exact List.mem_filterMap.mpr ⟨f, hf, by rw [he]⟩
  · intro r hr hrf
    rw [scanFiles_records] at hr
    obtain ⟨g, _, hgr⟩ := List.mem_filterMap.mp hr
    cases hx : extract fs folder g with
    | error e2 => rw [hx] at hgr; simp [Except.toOption] at hgr
    | ok r2 =>
      rw [hx] at hgr
      simp only [Except.toOption, Option.some.injEq] at hgr
      rw [hgr] at hx
      have hgf : g = f := by rw [← hrf, extract_ok_filename fs folder g r hx]
      rw [hgf, he] at hx
      simp at hx

/-- Witness for C5: one failing candidate between two successes. -/
theorem failing_file_skipped_with_diagnostic_witness :
    (scanFiles fsTwoGoodOneBad "." ["a.png", "bad.png", "c.png"]).2 =
      ["a.png", "bad.png", "c.png"].filterMap
        (fun f => (extract fsTwoGoodOneBad "." f).toOption) ∧
    (scanFiles fsTwoGoodOneBad "." ["a.png", "bad.png", "c.png"]).1 =
      ["a.png", "bad.png", "c.png"].filterMap (fun f =>
        match extract fsTwoGoodOneBad "." f with
        | Except.ok _ => none
        | Except.error e => some (errLine f e)) ∧
    (∀ f ∈ ["a.png", "bad.png", "c.png"], ∀ e : String,
      extract fsTwoGoodOneBad "." f = Except.error e →
      errLine f e ∈ (scanFiles fsTwoGoodOneBad "." ["a.png", "bad.png", "c.png"]).1 ∧
        ∀ r ∈ (scanFiles fsTwoGoodOneBad "." ["a.png", "bad.png", "c.png"]).2,
          r.filename ≠ f) :=
  failing_file_skipped_with_diagnostic fsTwoGoodOneBad "." ["a.png", "bad.png", "c.png"]

lemma scanFiles_filenames_sublist (fs : FileSystem) (folder : String) :
    ∀ fl : List String,
      ((scanFiles fs folder fl).2.map ImageRecord.filename).Sublist fl
  | [] => by simp [scanFiles]
  | f :: rest => by
    have ih := scanFiles_filenames_sublist fs folder rest
    cases h : extract fs folder f with
    | ok r =>
      have hf : r.filename = f := extract_ok_filename fs folder f r h
      simp only [scanFiles, h, List.map_cons]
      rw [hf]
      exact List.Sublist.cons₂ f ih
    | error e =>
      simp only [scanFiles, h]
      exact List.Sublist.cons f ih

lemma strLe_trans : ∀ a b c : String, strLe a b → strLe b c → strLe a c := by
  intro a b c hab hbc
  simp only [strLe, decide_eq_true_eq] at hab hbc ⊢
  exact le_trans hab hbc

lemma strLe_total : ∀ a b : String, strLe a b || strLe b a := by
  intro a b
  simp only [strLe]
  rcases le_total a b with h | h
  · simp [h]
  · simp [h]

/-- C3: the extracted record list carries filenames in ascending
lexicographic order (it walks the `mergeSort`ed candidates and drops
failures), and both the console table and the CSV export lay out the rows
by mapping over that list, so both present the records in list order. -/
theorem outputs_in_sorted_filename_order (fs : FileSystem) (folder : String) :
    ((get_png_resolutions fs folder).2.map ImageRecord.filename).Pairwise
      (fun a b => a ≤ b) ∧
    (∀ l : List ImageRecord, l ≠ [] →
      display_results l = tableHeaderLines ++ l.map rowLine ++ summaryLines l) ∧
    (∀ l : List ImageRecord, l ≠ [] → ∀ out : String,
      (create_csv_report none l out).1 = some (l.map csvRowOf)) := by
  refine ⟨?_, ?_, ?_⟩
  · unfold get_png_resolutions
    by_cases h1 : fs.pathExists = false
    · simp [h1]
    · rw [if_neg h1]
      by_cases h2 : (fs.files.filter pngFilter).isEmpty
      · simp [h2]
      · rw [if_neg h2]
        have hsort : ((fs.files.filter pngFilter).mergeSort strLe).Pairwise
            (fun a b => strLe a b = true) :=
          List.sorted_mergeSort strLe_trans strLe_total (fs.files.filter pngFilter)
        have hsub := scanFiles_filenames_sublist fs folder
          ((fs.files.filter pngFilter).mergeSort strLe)
        have hpair := hsort.sublist hsub
        exact hpair.imp (fun hab => by
          simpa only [strLe, decide_eq_true_eq] using hab)
  · intro l hl
    simp [display_results, hl]
  · intro l hl out
    simp [create_csv_report, hl]

/-- C9: whatever the filesystem does (missing root, zero matches, corrupt
files, a failing CSV write) and whatever the prompt reply is, the last
line `main` prints is always `Done!` — no error path is fatal. -/
theorem process_always_reaches_done (fs : FileSystem) (argv : List String)
    (input : String) :
    (main fs argv input).getLast? = some "\nDone!" ∧
    "\nDone!" ∈ main fs argv input := by
  constructor
  · simp only [main]
    exact List.getLast?_concat _
  · simp only [main]
    exact List.mem_append_right _ (List.mem_singleton.mpr rfl)

end ImageScanner
